import Mathlib

/-!
Verification development for the filter-and-query-composition engine of
the saritasa-sqlalchemy-tools repository.

The embedding is shallow: entity metadata (SQLAlchemy mapper reflection) is
a record of lookup functions over an abstract type of entity identifiers,
SQL boolean expressions are a small AST mirroring exactly the combinators
the library produces, and the Python functions of
repositories/filters.py, repositories/core.py, repositories/ordering.py
and schema/auto_schema.py are translated into total Lean functions, with
Python exceptions made explicit through Except.
-/

namespace SST

/-! Entity metadata, mirroring what the code reads off SQLAlchemy mappers:
per attribute name, whether the attribute is a plain column or a
relationship, and for a relationship its uselist flag and target entity
(field.property.uselist and field.property.mapper.class_ in the source). -/

inductive AttrKind (μ : Type) where
  | column
  | relationship (uselist : Bool) (target : μ)
deriving DecidableEq

/-- Many-to-many filter configuration triple. Modelled from the spec:
the definition of M2MFilterConfig is imported by models/init from
models/core but is absent from the provided source of models/core; the
spec (section 3) describes it as the triple
(relation_field, filter_field, match_field) attached to an entity type. -/
structure M2MFilterConfig where
  relation_field : String
  filter_field : String
  match_field : String
deriving DecidableEq

/-- Reflection surface of one declarative model universe: attribute lookup
(getattr on the model class), the per-type primary key field name
(BaseModel.pk_field), and the per-type many-to-many filter mapping
(the m2m_filters class variable, keyed by filter field name). -/
structure ModelMeta (μ : Type) where
  attr : μ → String → Option (AttrKind μ)
  pk_field : μ → String
  m2m_filters : μ → String → Option M2MFilterConfig

/-! Filter values. The library passes filter values through untouched to
the SQLAlchemy comparison operators; the claims only exercise integer and
integer-list values, plus None, so those are the value shapes embedded. -/

inductive FilterValue where
  | int (i : Int)
  | none_
  | list (vs : List Int)
deriving DecidableEq

/-- Comparison operators, one per value of filter_args_mapping in
transform_simple_filter: is_, in_, overlaps and the dunder comparison
methods eq, gt, ge, lt, le of InstrumentedAttribute. -/
inductive PyOp where
  | is_
  | in_
  | overlaps
  | eq
  | gt
  | ge
  | lt
  | le
deriving DecidableEq

/-- SQL boolean expression AST: exactly the expression shapes the filter
engine emits. simple is a column comparison, any and has are the
relationship existence predicates (field.any, field.has), not_ is
sqlalchemy.not_, and corrExists is the correlated existence predicate
against an association entity produced by the spec-modelled many-to-many
rewriting (association entity, its match_field column, inner predicate). -/
inductive SQLFilter (μ : Type) where
  | simple (field : String) (op : PyOp) (value : FilterValue)
  | any (field : String) (inner : SQLFilter μ)
  | has (field : String) (inner : SQLFilter μ)
  | not_ (inner : SQLFilter μ)
  | corrExists (assoc : μ) (match_field : String) (inner : SQLFilter μ)
deriving DecidableEq

/-- Python exceptions that can escape the transform functions:
AttributeError from getattr on a missing attribute, the explicit
ValueError of transform_filter, KeyError from the filter_args_mapping
dict lookup, and IndexError from filter_arg[0] on an empty list. -/
inductive FilterError where
  | attributeError (name : String)
  | valueError (msg : String)
  | keyError (key : String)
  | indexError
deriving DecidableEq

/-- The Filter dataclass of repositories/filters.py. -/
structure Filter where
  field : String
  value : FilterValue
  exclude : Bool := false

/-! Splitting on a double underscore, the semantics of the Python
str.split call self.field.split with separator made of two underscores:
left-to-right, non-overlapping, over the character list of the string. -/

def splitSegsAux : List Char → List Char → List (List Char)
  | [], acc => [acc.reverse]
  | '_' :: '_' :: rest, acc => acc.reverse :: splitSegsAux rest []
  | c :: rest, acc => splitSegsAux rest (c :: acc)

/-- Split a string on the double-underscore separator, as Python
str.split does. -/
def splitDunder (s : String) : List String :=
  (splitSegsAux s.toList []).map List.asString

/-- Whether a string contains a double underscore, the semantics of the
Python substring test used by process_filters_by_filters. -/
def hasDunderAux : List Char → Bool
  | '_' :: '_' :: _ => true
  | _ :: rest => hasDunderAux rest
  | [] => false

def hasDunder (s : String) : Bool := hasDunderAux s.toList

/-- filter_args_mapping of transform_simple_filter: the dict from
operator tokens to comparison method names, as a partial lookup so that
the KeyError of an absent key stays visible. -/
def filter_args_mapping : String → Option PyOp
  | "is" => some .is_
  | "in" => some .in_
  | "overlaps" => some .overlaps
  | "exact" => some .eq
  | "gt" => some .gt
  | "gte" => some .ge
  | "lt" => some .lt
  | "lte" => some .le
  | _ => none

variable {μ : Type}

/-- Filter.transform_simple_filter: look the field up on the model
(getattr), look the operator token up in filter_args_mapping (a plain
dict subscript, so an unknown token raises KeyError), and apply the
resulting comparison method to the value. -/
def transform_simple_filter (M : ModelMeta μ) (field_name : String)
    (filter_arg : String) (model : μ) (value : FilterValue) :
    Except FilterError (SQLFilter μ) :=
  match M.attr model field_name with
  | none => .error (.attributeError field_name)
  | some _ =>
    match filter_args_mapping filter_arg with
    | none => .error (.keyError filter_arg)
    | some op => .ok (.simple field_name op value)

/-- Core of Filter.transform_filter and Filter.transform_relationship,
over the list of double-underscore segments of the field string.
The source splits the field, dispatches on whether the first segment is
a relationship attribute, and in the relationship branch rebuilds a
Filter from the remaining segments joined back with the separator and
transforms it against the relationship target
(field.property.mapper.class_), wrapped in field.any when
field.property.uselist holds and field.has otherwise.  Joining split
output with the separator and splitting again yields the same segments,
so the recursion here passes the remaining segments directly; for an
empty remainder the rebuilt field is the empty string, whose single
segment is the empty attribute name, and getattr for an empty name on a
declaratively mapped class always raises AttributeError. -/
def transformConsStep (M : ModelMeta μ) (field_name : String)
    (filter_arg : List String) (value : FilterValue) (model : μ)
    (recur : FilterValue → μ → Except FilterError (SQLFilter μ)) :
    Except FilterError (SQLFilter μ) :=
  match M.attr model field_name with
  | none => .error (.attributeError field_name)
  | some (.relationship uselist target) =>
    match filter_arg with
    | [] => .error (.attributeError "")
    | _ :: _ =>
      Except.map
        (fun inner =>
          if uselist then .any field_name inner else .has field_name inner)
        (recur value target)
  | some .column =>
    if filter_arg.length > 1 then
      .error (.valueError "Long filter args only supported for relationships!")
    else
      match filter_arg with
      | [] => .error .indexError
      | arg :: _ => transform_simple_filter M field_name arg model value

def transformFilterCore (M : ModelMeta μ) :
    List String → FilterValue → μ → Except FilterError (SQLFilter μ)
  | [], _, _ => .error (.attributeError "")
  | field_name :: filter_arg, value, model =>
    transformConsStep M field_name filter_arg value model
      (transformFilterCore M filter_arg)

/-- Filter.transform_filter: split the field on the double underscore,
transform, and negate with sqlalchemy.not_ when exclude is set. -/
def Filter.transform_filter (flt : Filter) (M : ModelMeta μ) (model : μ) :
    Except FilterError (SQLFilter μ) :=
  match transformFilterCore M (splitDunder flt.field) flt.value model with
  | .error e => .error e
  | .ok filter_object =>
    .ok (if flt.exclude then .not_ filter_object else filter_object)

/-- Modelled from the spec: the many-to-many rewriting branch of the
filter engine.  M2MFilterConfig is exported by the models package and
exercised by the test suite, but its definition and the code consuming
it are absent from the provided sources.  Spec section 4.1: when the
leading attribute name matches a configured many-to-many filter mapping
on the entity type, the engine rewrites the chain into a correlated
existence predicate against the association entity, joining on
match_field equal to the primary key of the owning entity and
recursively applying the remaining filter, which targets filter_field,
to the association target entity, rather than resolving the name as an
ordinary relationship hop. -/
def transform_m2m_filter (M : ModelMeta μ) (field_name : String)
    (filter_arg : List String) (model : μ) (value : FilterValue) :
    Except FilterError (SQLFilter μ) :=
  match M.m2m_filters model field_name with
  | none => .error (.keyError field_name)
  | some cfg =>
    match M.attr model cfg.relation_field with
    | some (.relationship _ assoc) =>
      match transformFilterCore M filter_arg value assoc with
      | .error e => .error e
      | .ok inner => .ok (.corrExists assoc cfg.match_field inner)
    | _ => .error (.attributeError cfg.relation_field)

/-- Modelled from the spec: segment-level transform with the
many-to-many indirection in front of the ordinary dispatch of
transformFilterCore, as spec section 4.1 places it. -/
def transformFilterM2MCore (M : ModelMeta μ) (segs : List String)
    (value : FilterValue) (model : μ) : Except FilterError (SQLFilter μ) :=
  match segs with
  | field_name :: filter_arg =>
    match M.m2m_filters model field_name with
    | some _ => transform_m2m_filter M field_name filter_arg model value
    | none => transformFilterCore M segs value model
  | [] => transformFilterCore M segs value model

/-- Modelled from the spec: Filter.transform_filter with the
many-to-many indirection, splitting the field and applying exclude
negation exactly as the source transform_filter does. -/
def Filter.transform_filter_m2m (flt : Filter) (M : ModelMeta μ) (model : μ) :
    Except FilterError (SQLFilter μ) :=
  match transformFilterM2MCore M (splitDunder flt.field) flt.value model with
  | .error e => .error e
  | .ok filter_object =>
    .ok (if flt.exclude then .not_ filter_object else filter_object)

/-! Relational semantics used to settle the row-set claims.  A row is a
scalar valuation of column names (None for SQL NULL); a database gives
the rows of every entity and, per relationship attribute, the rows
associated to a given row.  Both the relationship existence predicates
any and has translate to correlated EXISTS subqueries in SQL, so both
evaluate as existence over the associated rows. -/

structure Row where
  scalars : String → Option Int

structure DB (μ : Type) where
  rows : μ → List Row
  related : μ → String → Row → List Row

/-- Boolean semantics of one column comparison.  Comparisons against a
NULL scalar are false, matching SQL three-valued logic collapsing to
false at the WHERE clause; a value of a shape the operator cannot
consume is not given a semantics and evaluates to false. -/
def evalSimple (op : PyOp) (v : FilterValue) (x : Option Int) : Bool :=
  match op, v with
  | .is_, .none_ => x.isNone
  | .is_, .int i => x == some i
  | .in_, .list vs =>
    match x with
    | some a => vs.contains a
    | none => false
  | .eq, .int i => x == some i
  | .gt, .int i =>
    match x with
    | some a => decide (i < a)
    | none => false
  | .ge, .int i =>
    match x with
    | some a => decide (i ≤ a)
    | none => false
  | .lt, .int i =>
    match x with
    | some a => decide (a < i)
    | none => false
  | .le, .int i =>
    match x with
    | some a => decide (a ≤ i)
    | none => false
  | _, _ => false

/-- Evaluate a SQL boolean expression at a row of the given entity. -/
def evalFilter (db : DB μ) (M : ModelMeta μ) :
    SQLFilter μ → μ → Row → Bool
  | .simple f op v => fun _ r => evalSimple op v (r.scalars f)
  | .any f inner => fun model r =>
    match M.attr model f with
    | some (.relationship _ target) =>
      (db.related model f r).any (evalFilter db M inner target)
    | _ => false
  | .has f inner => fun model r =>
    match M.attr model f with
    | some (.relationship _ target) =>
      (db.related model f r).any (evalFilter db M inner target)
    | _ => false
  | .not_ inner => fun model r => !(evalFilter db M inner model r)
  | .corrExists assoc match_field inner => fun model r =>
    (db.rows assoc).any fun a =>
      (a.scalars match_field == r.scalars (M.pk_field model))
        && evalFilter db M inner assoc a

/-! Helper lemmas shared by several claims. -/

/-- The uselist dispatch of transform_relationship evaluates the same
way for any and for has: both are correlated existence predicates. -/
theorem evalFilter_wrap (db : DB μ) (M : ModelMeta μ) (u : Bool)
    (f : String) (inner : SQLFilter μ) (model : μ) (r : Row) :
    evalFilter db M (if u then .any f inner else .has f inner) model r
      = match M.attr model f with
        | some (.relationship _ target) =>
          (db.related model f r).any (evalFilter db M inner target)
        | _ => false := by
  cases u <;> rfl

/-- One-step unfolding of transformFilterCore at a nonempty segment
list. -/
theorem transformFilterCore_cons (M : ModelMeta μ) (field_name : String)
    (filter_arg : List String) (value : FilterValue) (model : μ) :
    transformFilterCore M (field_name :: filter_arg) value model
      = transformConsStep M field_name filter_arg value model
          (transformFilterCore M filter_arg) := rfl

/-- Unfolding of transformFilterCore at a relationship attribute: the
transform_relationship branch. -/
theorem transformFilterCore_relationship (M : ModelMeta μ)
    (field_name : String) (filter_arg : List String) (value : FilterValue)
    (model : μ) (uselist : Bool) (target : μ)
    (h : M.attr model field_name = some (.relationship uselist target))
    (hne : filter_arg ≠ []) :
    transformFilterCore M (field_name :: filter_arg) value model
      = Except.map
          (fun inner =>
            if uselist then SQLFilter.any field_name inner
            else SQLFilter.has field_name inner)
          (transformFilterCore M filter_arg value target) := by
  cases filter_arg with
  | nil => exact absurd rfl hne
  | cons a tl =>
    rw [transformFilterCore_cons]
    unfold transformConsStep
    rw [h]

/-- Unfolding of transformFilterCore at a non-relationship attribute:
the length guard followed by transform_simple_filter. -/
theorem transformFilterCore_column (M : ModelMeta μ)
    (field_name : String) (filter_arg : List String) (value : FilterValue)
    (model : μ) (h : M.attr model field_name = some .column) :
    transformFilterCore M (field_name :: filter_arg) value model
      = if filter_arg.length > 1 then
          .error (.valueError "Long filter args only supported for relationships!")
        else
          match filter_arg with
          | [] => .error .indexError
          | arg :: _ =>
            transform_simple_filter M field_name arg model value := by
  rw [transformFilterCore_cons]
  unfold transformConsStep
  rw [h]

/-- The operator tokens accepted by transform_simple_filter, the keys of
filter_args_mapping. -/
def recognized_operators : List String :=
  ["is", "in", "exact", "gt", "gte", "lt", "lte", "overlaps"]

theorem filter_args_mapping_eq_none (s : String)
    (h : s ∉ recognized_operators) : filter_args_mapping s = none := by
  unfold filter_args_mapping
  split
  all_goals first
    | rfl
    | exact absurd (by decide) h

/-- C4: for a simple (non-relationship) filter the operator segment is
recognized exactly when it is one of is, in, exact, gt, gte, lt, lte,
overlaps, each mapped by filter_args_mapping to the corresponding
comparison predicate on the named attribute (identity or null test,
membership, equality, the four ordering comparisons, overlap); any
other operator token makes transform_simple_filter raise the KeyError
of the filter_args_mapping dict lookup, the UnknownOperatorError of the
spec taxonomy, at transform time, before any query execution (the
transform is a pure function of the filter and the model metadata). -/
theorem transform_simple_filter_operator_cases (M : ModelMeta μ)
    (model : μ) (field_name : String) (value : FilterValue)
    (k : AttrKind μ) (hattr : M.attr model field_name = some k)
    (filter_arg : String) :
    (filter_arg ∈ recognized_operators ↔
      ∃ op, filter_args_mapping filter_arg = some op ∧
        transform_simple_filter M field_name filter_arg model value
          = .ok (.simple field_name op value))
    ∧ (filter_arg ∉ recognized_operators →
        transform_simple_filter M field_name filter_arg model value
          = .error (.keyError filter_arg))
    ∧ filter_args_mapping "is" = some .is_
    ∧ filter_args_mapping "in" = some .in_
    ∧ filter_args_mapping "exact" = some .eq
    ∧ filter_args_mapping "gt" = some .gt
    ∧ filter_args_mapping "gte" = some .ge
    ∧ filter_args_mapping "lt" = some .lt
    ∧ filter_args_mapping "lte" = some .le
    ∧ filter_args_mapping "overlaps" = some .overlaps := by
  refine ⟨?_, ?_, rfl, rfl, rfl, rfl, rfl, rfl, rfl, rfl⟩
  · constructor
    · intro h
      fin_cases h <;>
        exact ⟨_, rfl, by simp [transform_simple_filter, hattr, filter_args_mapping]⟩
    · intro ⟨op, hmap, _⟩
      by_contra habs
      rw [filter_args_mapping_eq_none filter_arg habs] at hmap
      exact Option.noConfusion hmap
  · intro h
    simp [transform_simple_filter, hattr, filter_args_mapping_eq_none filter_arg h]

/-- C3: a field that splits into more than one leading segment before
the operator segment, whose first segment names a non-relationship
attribute of the model, makes Filter.transform_filter raise the
ValueError of the long-filter-args check, the InvalidFilterPath of the
spec taxonomy, at transform time and before any query execution. -/
theorem transform_filter_long_args_error (M : ModelMeta μ) (model : μ)
    (flt : Filter) (field_name : String) (filter_arg : List String)
    (hsplit : splitDunder flt.field = field_name :: filter_arg)
    (hlen : filter_arg.length > 1)
    (hcol : M.attr model field_name = some .column) :
    flt.transform_filter M model
      = .error (.valueError "Long filter args only supported for relationships!") := by
  unfold Filter.transform_filter
  rw [hsplit, transformFilterCore_column M field_name filter_arg flt.value model hcol]
  simp [hlen]

/-- C2: the relationship branch of Filter.transform_filter wraps the
recursive transform of the remaining segments against the relationship
target in an existence predicate over the relationship, field.any when
the relationship is to-many (uselist) and field.has when it is to-one;
consequently a two-hop filter relationA__relationB__attr__exact with
value v evaluates to true at a row exactly when some row reached by
joining through relationA then relationB has attr equal to v, the same
row set as the manually joined query. -/
theorem transform_relationship_existence (M : ModelMeta μ) (db : DB μ)
    (model : μ) :
    (∀ (rel : String) (rest : List String) (value : FilterValue)
        (u : Bool) (target : μ),
      M.attr model rel = some (.relationship u target) → rest ≠ [] →
      transformFilterCore M (rel :: rest) value model
        = Except.map
            (fun inner =>
              if u then SQLFilter.any rel inner else SQLFilter.has rel inner)
            (transformFilterCore M rest value target))
    ∧ (∀ (relA relB attrN : String) (uA uB : Bool) (tA tB : μ) (v : Int),
      M.attr model relA = some (.relationship uA tA) →
      M.attr tA relB = some (.relationship uB tB) →
      M.attr tB attrN = some .column →
      ∃ F, transformFilterCore M [relA, relB, attrN, "exact"] (.int v) model
          = .ok F ∧
        ∀ r : Row, evalFilter db M F model r = true ↔
          ∃ a ∈ db.related model relA r, ∃ b ∈ db.related tA relB a,
            b.scalars attrN = some v) := by
  constructor
  · intro rel rest value u target hrel hne
    exact transformFilterCore_relationship M rel rest value model u target hrel hne
  · intro relA relB attrN uA uB tA tB v hA hB hattr
    refine ⟨(fun inner => if uA then SQLFilter.any relA inner
        else SQLFilter.has relA inner)
      ((fun inner => if uB then SQLFilter.any relB inner
        else SQLFilter.has relB inner)
        (SQLFilter.simple attrN .eq (.int v))), ?_, ?_⟩
    · rw [transformFilterCore_relationship M relA _ _ model uA tA hA (by simp)]
      rw [transformFilterCore_relationship M relB _ _ tA uB tB hB (by simp)]
      rw [transformFilterCore_column M attrN _ _ tB hattr]
      simp [transform_simple_filter, hattr, filter_args_mapping, Except.map]
    · intro r
      rw [evalFilter_wrap, hA]
      simp only [List.any_eq_true]
      constructor
      · intro ⟨a, ha, hev⟩
        rw [evalFilter_wrap, hB] at hev
        simp only [List.any_eq_true] at hev
        obtain ⟨b, hb, hevb⟩ := hev
        refine ⟨a, ha, b, hb, ?_⟩
        simpa [evalFilter, evalSimple] using hevb
      · intro ⟨a, ha, b, hb, hbv⟩
        refine ⟨a, ha, ?_⟩
        rw [evalFilter_wrap, hB]
        simp only [List.any_eq_true]
        exact ⟨b, hb, by simp [evalFilter, evalSimple, hbv]⟩

/-- Membership in a one-element list through the in_ operator. -/
theorem evalSimple_in_singleton (x : Option Int) (i : Int) :
    evalSimple .in_ (.list [i]) x = true ↔ x = some i := by
  cases x <;> simp [evalSimple]

/-- C1: when the leading attribute name of a filter matches a configured
many-to-many filter mapping, the spec-modelled transform rewrites the
filter into a correlated existence predicate against the association
entity, joined on match_field equal to the primary key of the owning
entity, with the remaining filter transformed recursively against the
association entity, instead of resolving the name as an ordinary
relationship hop; with the configuration relation_field links,
filter_field tag_id, match_field owner_id, filtering links__tag_id__in
with value list 5 selects exactly the rows having at least one
association row with owner_id equal to their primary key and tag_id 5. -/
theorem m2m_filter_rewrite (M : ModelMeta μ) (db : DB μ) (model : μ) :
    (∀ (fn : String) (fa : List String) (value : FilterValue)
        (cfg : M2MFilterConfig) (u : Bool) (assoc : μ),
      M.m2m_filters model fn = some cfg →
      M.attr model cfg.relation_field = some (.relationship u assoc) →
      transformFilterM2MCore M (fn :: fa) value model
        = Except.map (SQLFilter.corrExists assoc cfg.match_field)
            (transformFilterCore M fa value assoc))
    ∧ (∀ assoc : μ,
      M.m2m_filters model "links" = some ⟨"links", "tag_id", "owner_id"⟩ →
      M.attr model "links" = some (.relationship true assoc) →
      M.attr assoc "tag_id" = some .column →
      ∃ F, Filter.transform_filter_m2m
          ⟨"links__tag_id__in", .list [5], false⟩ M model = .ok F
        ∧ F = .corrExists assoc "owner_id" (.simple "tag_id" .in_ (.list [5]))
        ∧ ∀ r : Row, evalFilter db M F model r = true ↔
            ∃ a ∈ db.rows assoc,
              a.scalars "owner_id" = r.scalars (M.pk_field model)
              ∧ a.scalars "tag_id" = some 5) := by
  have main : ∀ (fn : String) (fa : List String) (value : FilterValue)
      (cfg : M2MFilterConfig) (u : Bool) (assoc : μ),
      M.m2m_filters model fn = some cfg →
      M.attr model cfg.relation_field = some (.relationship u assoc) →
      transformFilterM2MCore M (fn :: fa) value model
        = Except.map (SQLFilter.corrExists assoc cfg.match_field)
            (transformFilterCore M fa value assoc) := by
    intro fn fa value cfg u assoc hm2m hrel
    unfold transformFilterM2MCore transform_m2m_filter
    simp only [hm2m, hrel]
    cases transformFilterCore M fa value assoc <;> rfl
  refine ⟨main, ?_⟩
  intro assoc hm2m hrel htag
  refine ⟨.corrExists assoc "owner_id" (.simple "tag_id" .in_ (.list [5])),
    ?_, rfl, ?_⟩
  · unfold Filter.transform_filter_m2m
    have hsplit : splitDunder "links__tag_id__in" = ["links", "tag_id", "in"] := by
      decide
    rw [hsplit]
    rw [main "links" ["tag_id", "in"] (.list [5])
      ⟨"links", "tag_id", "owner_id"⟩ true assoc hm2m hrel]
    rw [transformFilterCore_column M "tag_id" ["in"] (.list [5]) assoc htag]
    simp [transform_simple_filter, htag, filter_args_mapping, Except.map]
  · intro r
    show ((db.rows assoc).any fun a =>
      (a.scalars "owner_id" == r.scalars (M.pk_field model))
        && evalFilter db M (.simple "tag_id" .in_ (.list [5])) assoc a) = true ↔ _
    simp only [List.any_eq_true, Bool.and_eq_true, beq_iff_eq]
    constructor
    · intro ⟨a, ha, hpk, hin⟩
      exact ⟨a, ha, hpk, (evalSimple_in_singleton (a.scalars "tag_id") 5).mp hin⟩
    · intro ⟨a, ha, hpk, htg⟩
      exact ⟨a, ha, hpk, (evalSimple_in_singleton (a.scalars "tag_id") 5).mpr htg⟩

/-! Concrete fixtures used by the witnesses: a three-entity universe in
the shape of the test models of the repository (an owning entity, a
related entity and an association entity). -/

inductive TestEnt where
  | tm
  | rm
  | mm
deriving DecidableEq

def testMeta : ModelMeta TestEnt where
  attr := fun m f =>
    match m, f with
    | .tm, "id" => some .column
    | .tm, "count" => some .column
    | .tm, "related_model" => some (.relationship false .rm)
    | .tm, "related_models" => some (.relationship true .rm)
    | .tm, "links" => some (.relationship true .mm)
    | .rm, "id" => some .column
    | .rm, "name" => some .column
    | .rm, "test_model" => some (.relationship false .tm)
    | .rm, "related_model" => some (.relationship false .rm)
    | .mm, "id" => some .column
    | .mm, "owner_id" => some .column
    | .mm, "tag_id" => some .column
    | _, _ => none
  pk_field := fun _ => "id"
  m2m_filters := fun m f =>
    match m, f with
    | .tm, "links" => some ⟨"links", "tag_id", "owner_id"⟩
    | _, _ => none

def emptyDB : DB TestEnt where
  rows := fun _ => []
  related := fun _ _ _ => []

/-- Witness for C1 at the concrete fixture. -/
theorem m2m_filter_rewrite_witness :
    ∃ F, Filter.transform_filter_m2m
        ⟨"links__tag_id__in", .list [5], false⟩ testMeta TestEnt.tm = .ok F
      ∧ F = .corrExists TestEnt.mm "owner_id"
          (.simple "tag_id" .in_ (.list [5]))
      ∧ ∀ r : Row,
          evalFilter emptyDB testMeta F TestEnt.tm r = true ↔
          ∃ a ∈ emptyDB.rows TestEnt.mm,
            a.scalars "owner_id" = r.scalars (testMeta.pk_field TestEnt.tm)
            ∧ a.scalars "tag_id" = some 5 :=
  (m2m_filter_rewrite testMeta emptyDB TestEnt.tm).2 TestEnt.mm rfl rfl rfl

/-- Witness for C2 at the concrete fixture: a two-hop to-one chain. -/
theorem transform_relationship_existence_witness :
    ∃ F, transformFilterCore testMeta
        ["test_model", "related_model", "name", "exact"] (.int 7) TestEnt.rm
        = .ok F
      ∧ ∀ r : Row, evalFilter emptyDB testMeta F TestEnt.rm r = true ↔
          ∃ a ∈ emptyDB.related TestEnt.rm "test_model" r,
            ∃ b ∈ emptyDB.related TestEnt.tm "related_model" a,
              b.scalars "name" = some 7 :=
  (transform_relationship_existence testMeta emptyDB TestEnt.rm).2
    "test_model" "related_model" "name" false false TestEnt.tm TestEnt.rm 7
    rfl rfl rfl

/-- Witness for C3 at the concrete fixture. -/
theorem transform_filter_long_args_error_witness :
    Filter.transform_filter ⟨"count__gt__lt", .int 1, false⟩ testMeta
        TestEnt.tm
      = .error (.valueError "Long filter args only supported for relationships!") :=
  transform_filter_long_args_error testMeta TestEnt.tm
    ⟨"count__gt__lt", FilterValue.int 1, false⟩ "count" ["gt", "lt"]
    (by decide) (by decide) rfl

/-- Witness for C4 at the concrete fixture: the unknown token bogus
raises the KeyError and a recognized token maps to its predicate. -/
theorem transform_simple_filter_operator_cases_witness :
    transform_simple_filter testMeta "count" "bogus" TestEnt.tm (.int 1)
      = .error (.keyError "bogus")
    ∧ transform_simple_filter testMeta "count" "gte" TestEnt.tm (.int 1)
      = .ok (.simple "count" .ge (.int 1)) :=
  ⟨(transform_simple_filter_operator_cases testMeta TestEnt.tm "count"
      (.int 1) .column rfl "bogus").2.1 (by decide),
   by
    obtain ⟨op, hmap, hok⟩ :=
      ((transform_simple_filter_operator_cases testMeta TestEnt.tm "count"
        (.int 1) .column rfl "gte").1).mp (by decide)
    have : op = PyOp.ge := by
      have := hmap
      simp [filter_args_mapping] at this
      exact this.symm
    rw [this] at hok
    exact hok⟩

/-! Ordering DSL of repositories/ordering.py. -/

/-- A sortable clause: either a plain string (attribute name, ascending)
or a sqlalchemy.desc clause on an attribute name. -/
inductive SQLOrderingClause where
  | str (s : String)
  | desc (s : String)
deriving DecidableEq

/-- Python truthiness of a string starting with a dash, and slicing off
the first character, over the character list. -/
def strStartsDash (s : String) : Bool :=
  match s.toList with
  | '-' :: _ => true
  | _ => false

def strDropFirst (s : String) : String :=
  (s.toList.drop 1).asString

/-- OrderingEnum.sql_clause: a member whose string value starts with a
dash converts to a descending clause on the rest of the value, any
other member is passed through as the plain string. -/
def sql_clause (s : String) : SQLOrderingClause :=
  if strStartsDash s then .desc (strDropFirst s) else .str s

/-- An ordering clause accepted by the repository: a symbolic
OrderingEnum member (carried by its string value) or a raw sortable
clause. -/
inductive OrderingClause where
  | member (value : String)
  | sql (c : SQLOrderingClause)
deriving DecidableEq

/-- OrderingEnumMeta.__new__: for every declared member name, append a
member with the name suffixed _desc and the value prefixed with a dash.
The declared members are kept first, in declaration order, and the
derived members are appended in the same order, matching the insertion
order of the enum class dict. -/
def orderingEnumMembers (declared : List (String × String)) :
    List (String × String) :=
  declared ++ declared.map (fun p => (p.1 ++ "_desc", "-" ++ p.2))

/-! Repository statement pipeline of repositories/core.py.  A statement
is the immutable builder value produced by sqlalchemy.select: options
(eager-load and annotation directives), where clauses, filter_by
criteria, order_by clauses and the offset and limit windows.  Every
builder method returns a new statement value. -/

/-- Eager-load and annotation options attached by .options. -/
inductive LoadOption where
  | joined (chain : List String)
  | selectin (chain : List String)
  | withExpression (attrName : String) (expr : Int)
  | undefer (attrName : String)
deriving DecidableEq

/-- A lazy-load target: a single relationship attribute or a nonempty
ordered chain of relationship attributes (target[0] and target[1:] in
the source, so an empty sequence is not representable). -/
inductive LazyLoaded where
  | single (attrName : String)
  | chain (head : String) (tail : List String)
deriving DecidableEq

/-- An annotation: a queryable attribute (undeferred) or a pair of an
attribute and a scalar subquery (with_expression); the subquery payload
is opaque to the pipeline and carried as an identifier. -/
inductive Annotation where
  | attrOnly (attrName : String)
  | withExpr (attrName : String) (expr : Int)
deriving DecidableEq

structure SelectStatement (μ : Type) where
  from_model : μ
  model_options : List LoadOption
  where_clauses : List (SQLFilter μ)
  filter_by : List (String × FilterValue)
  order_by : List SQLOrderingClause
  offset_val : Option Int
  limit_val : Option Int
deriving DecidableEq

/-- BaseRepository.select_statement: sqlalchemy.select(self.model). -/
def select_statement (model : μ) : SelectStatement μ :=
  ⟨model, [], [], [], [], none, none⟩

/-- The statement-or-default preamble shared by every builder:
use the given statement when it is not None, else a fresh select. -/
def statement_or_default (model : μ) (s : Option (SelectStatement μ)) :
    SelectStatement μ :=
  s.getD (select_statement model)

/-- A where filter passed to the repository: either a ready SQL filter
or a Filter object to transform. -/
inductive WhereFilter (μ : Type) where
  | sql (f : SQLFilter μ)
  | flt (f : Filter)

/-- BaseRepository.process_where_filters: transform every Filter object
against the repository model, pass SQL filters through, in order; the
first transform exception propagates. -/
def process_where_filters (M : ModelMeta μ) (model : μ) :
    List (WhereFilter μ) → Except FilterError (List (SQLFilter μ))
  | [] => .ok []
  | .sql f :: rest =>
    match process_where_filters M model rest with
    | .error e => .error e
    | .ok fs => .ok (f :: fs)
  | .flt f :: rest =>
    match f.transform_filter M model with
    | .error e => .error e
    | .ok sf =>
      match process_where_filters M model rest with
      | .error e => .error e
      | .ok fs => .ok (sf :: fs)

/-- BaseRepository.process_filters_by_filters: keywords containing a
double underscore are routed through the Filter DSL (with exclude left
at its default), the rest are kept as plain equality criteria. -/
def process_filters_by_filters (M : ModelMeta μ) (model : μ) :
    List (String × FilterValue) →
    Except FilterError (List (SQLFilter μ) × List (String × FilterValue))
  | [] => .ok ([], [])
  | (field, value) :: rest =>
    if hasDunder field then
      match Filter.transform_filter ⟨field, value, false⟩ M model with
      | .error e => .error e
      | .ok sf =>
        match process_filters_by_filters M model rest with
        | .error e => .error e
        | .ok (fs, by_) => .ok (sf :: fs, by_)
    else
      match process_filters_by_filters M model rest with
      | .error e => .error e
      | .ok (fs, by_) => .ok (fs, (field, value) :: by_)

/-- BaseRepository.get_filter_statement. -/
def get_filter_statement (M : ModelMeta μ) (model : μ)
    (statement : Option (SelectStatement μ)) (whereArg : List (WhereFilter μ))
    (filters_by : List (String × FilterValue)) :
    Except FilterError (SelectStatement μ) :=
  let s := statement_or_default model statement
  match process_where_filters M model whereArg with
  | .error e => .error e
  | .ok pw =>
    match process_filters_by_filters M model filters_by with
    | .error e => .error e
    | .ok (pf, left_out) =>
      .ok { s with
        where_clauses := s.where_clauses ++ pw ++ pf,
        filter_by := s.filter_by ++ left_out }

/-- BaseRepository.process_ordering_clauses: symbolic members convert
through sql_clause, raw clauses pass through. -/
def process_ordering_clauses (clauses : List OrderingClause) :
    List SQLOrderingClause :=
  clauses.map fun c =>
    match c with
    | .member v => sql_clause v
    | .sql c => c

/-- BaseRepository.get_order_statement. -/
def get_order_statement (model : μ) (statement : Option (SelectStatement μ))
    (clauses : List OrderingClause) : SelectStatement μ :=
  let s := statement_or_default model statement
  { s with order_by := s.order_by ++ process_ordering_clauses clauses }

/-- BaseRepository.get_annotated_statement: a tuple annotation attaches
with_expression, a bare attribute attaches undefer, one option per
annotation, in order. -/
def get_annotated_statement (model : μ)
    (statement : Option (SelectStatement μ)) (annotations : List Annotation) :
    SelectStatement μ :=
  annotations.foldl
    (fun st ann =>
      match ann with
      | .withExpr a e =>
        { st with model_options := st.model_options ++ [.withExpression a e] }
      | .attrOnly a =>
        { st with model_options := st.model_options ++ [.undefer a] })
    (statement_or_default model statement)

/-- Python truthiness of the optional integer arguments of
get_pagination_statement: None and 0 are falsy. -/
def pyTruthy (o : Option Int) : Bool :=
  match o with
  | none => false
  | some v => v != 0

/-- BaseRepository.get_pagination_statement: attach offset when offset
is truthy, then limit when limit is truthy. -/
def get_pagination_statement (model : μ)
    (statement : Option (SelectStatement μ)) (offset limit : Option Int) :
    SelectStatement μ :=
  let s := statement_or_default model statement
  let s := if pyTruthy offset then { s with offset_val := offset } else s
  if pyTruthy limit then { s with limit_val := limit } else s

/-- BaseRepository.get_joined_load_statement: one joinedload chain per
target, appended in order. -/
def get_joined_load_statement (model : μ)
    (statement : Option (SelectStatement μ)) (targets : List LazyLoaded) :
    SelectStatement μ :=
  targets.foldl
    (fun st t =>
      match t with
      | .single a =>
        { st with model_options := st.model_options ++ [.joined [a]] }
      | .chain h tl =>
        { st with model_options := st.model_options ++ [.joined (h :: tl)] })
    (statement_or_default model statement)

/-- BaseRepository.get_select_in_load_statement: one selectinload chain
per target, appended in order. -/
def get_select_in_load_statement (model : μ)
    (statement : Option (SelectStatement μ)) (targets : List LazyLoaded) :
    SelectStatement μ :=
  targets.foldl
    (fun st t =>
      match t with
      | .single a =>
        { st with model_options := st.model_options ++ [.selectin [a]] }
      | .chain h tl =>
        { st with model_options := st.model_options ++ [.selectin (h :: tl)] })
    (statement_or_default model statement)

/-- BaseRepository.get_fetch_statement: the source applies the builders
in sequence, rebinding the statement at each step; a transform
exception in the filter step propagates. -/
def get_fetch_statement (M : ModelMeta μ) (model : μ)
    (statement : Option (SelectStatement μ)) (offset limit : Option Int)
    (joined_load : List LazyLoaded) (select_in_load : List LazyLoaded)
    (annotations : List Annotation) (ordering_clauses : List OrderingClause)
    (whereArg : List (WhereFilter μ))
    (filters_by : List (String × FilterValue)) :
    Except FilterError (SelectStatement μ) :=
  let fetch_statement := get_joined_load_statement model statement joined_load
  let fetch_statement :=
    get_select_in_load_statement model (some fetch_statement) select_in_load
  let fetch_statement :=
    get_annotated_statement model (some fetch_statement) annotations
  let fetch_statement :=
    get_order_statement model (some fetch_statement) ordering_clauses
  match get_filter_statement M model (some fetch_statement) whereArg
      filters_by with
  | .error e => .error e
  | .ok fetch_statement =>
    .ok (get_pagination_statement model (some fetch_statement) offset limit)

/-- C5: get_fetch_statement is exactly the composition of the six
individual builders in the fixed order joined eager-load, then
select-in eager-load, then annotate, then order, then filter, then
paginate last, for every combination of inputs, with a filter transform
exception propagating unchanged. -/
theorem get_fetch_statement_is_composition (M : ModelMeta μ) (model : μ)
    (statement : Option (SelectStatement μ)) (offset limit : Option Int)
    (joined_load select_in_load : List LazyLoaded)
    (annotations : List Annotation) (ordering_clauses : List OrderingClause)
    (whereArg : List (WhereFilter μ))
    (filters_by : List (String × FilterValue)) :
    get_fetch_statement M model statement offset limit joined_load
        select_in_load annotations ordering_clauses whereArg filters_by
      = Except.map
          (fun s => get_pagination_statement model (some s) offset limit)
          (get_filter_statement M model
            (some (get_order_statement model
              (some (get_annotated_statement model
                (some (get_select_in_load_statement model
                  (some (get_joined_load_statement model statement
                    joined_load))
                  select_in_load))
                annotations))
              ordering_clauses))
            whereArg filters_by) := by
  unfold get_fetch_statement
  dsimp only
  cases h : get_filter_statement M model
    (some (get_order_statement model
      (some (get_annotated_statement model
        (some (get_select_in_load_statement model
          (some (get_joined_load_statement model statement joined_load))
          select_in_load))
        annotations))
      ordering_clauses))
    whereArg filters_by <;> simp [Except.map]

/-- C10: get_pagination_statement attaches an offset clause only when
offset is truthy and a limit clause only when limit is truthy, leaving
everything else of the statement unchanged; in particular offset None
or 0 together with limit None or 0 return the input statement
unchanged, so limit 0 means unlimited rather than an empty window. -/
theorem get_pagination_statement_truthy (model : μ)
    (s : SelectStatement μ) (offset limit : Option Int) :
    (get_pagination_statement model (some s) offset limit
      = { s with
          offset_val := if pyTruthy offset then offset else s.offset_val,
          limit_val := if pyTruthy limit then limit else s.limit_val })
    ∧ get_pagination_statement model (some s) none none = s
    ∧ get_pagination_statement model (some s) (some 0) (some 0) = s
    ∧ get_pagination_statement model (some s) none (some 0) = s
    ∧ get_pagination_statement model (some s) (some 0) none = s := by
  refine ⟨?_, rfl, rfl, rfl, rfl⟩
  unfold get_pagination_statement statement_or_default
  cases ho : pyTruthy offset <;> cases hl : pyTruthy limit <;> simp

/-- Appending the same suffix to two strings is injective. -/
theorem string_append_right_cancel {a b s : String}
    (h : a ++ s = b ++ s) : a = b := by
  have hd : a.data ++ s.data = b.data ++ s.data := by
    have := congrArg String.data h
    simpa [String.data_append] using this
  cases a
  cases b
  simp_all [List.append_cancel_right hd]

/-- In a pair list with pairwise distinct keys, exactly one entry has
the key of a member. -/
theorem countP_key_of_nodup (l : List (String × String))
    (hnodup : (l.map Prod.fst).Nodup) (p : String × String) (hp : p ∈ l) :
    l.countP (fun q => q.1 == p.1) = 1 := by
  have h1 : l.countP (fun q => q.1 == p.1)
      = (l.map Prod.fst).countP (fun k => k == p.1) := by
    rw [List.countP_map]
    rfl
  rw [h1]
  have : (l.map Prod.fst).count p.1 = 1 :=
    List.count_eq_one_of_mem hnodup (List.mem_map_of_mem Prod.fst hp)
  simpa [List.count] using this

/-- C7: the ordering enum metaclass derives, for every declared
ascending member, exactly one descending counterpart member whose name
is the declared name suffixed _desc and whose value is a dash prepended
to the declared value, and adds no other members, provided the declared
names are distinct and no declared name collides with a derived name
(an enum class dict rejects duplicate member names). -/
theorem ordering_enum_members_spec (declared : List (String × String))
    (hnodup : (declared.map Prod.fst).Nodup)
    (hfresh : ∀ n ∈ declared.map Prod.fst,
      n ++ "_desc" ∉ declared.map Prod.fst) :
    (∀ p ∈ declared,
      (orderingEnumMembers declared).countP
          (fun q => q.1 == p.1 ++ "_desc") = 1
      ∧ (p.1 ++ "_desc", "-" ++ p.2) ∈ orderingEnumMembers declared)
    ∧ (orderingEnumMembers declared).length = 2 * declared.length
    ∧ (∀ q ∈ orderingEnumMembers declared,
        q ∈ declared ∨ ∃ p ∈ declared, q = (p.1 ++ "_desc", "-" ++ p.2)) := by
  refine ⟨?_, ?_, ?_⟩
  · intro p hp
    constructor
    · unfold orderingEnumMembers
      rw [List.countP_append]
      have hzero : declared.countP (fun q => q.1 == p.1 ++ "_desc") = 0 := by
        have hnot : p.1 ++ "_desc" ∉ declared.map Prod.fst :=
          hfresh p.1 (List.mem_map_of_mem Prod.fst hp)
        have : (declared.map Prod.fst).count (p.1 ++ "_desc") = 0 :=
          List.count_eq_zero_of_not_mem hnot
        have h1 : declared.countP (fun q => q.1 == p.1 ++ "_desc")
            = (declared.map Prod.fst).countP (fun k => k == p.1 ++ "_desc") := by
          rw [List.countP_map]
          rfl
        rw [h1]
        simpa [List.count] using this
      have hone : (declared.map
            (fun p => (p.1 ++ "_desc", "-" ++ p.2))).countP
          (fun q => q.1 == p.1 ++ "_desc") = 1 := by
        rw [List.countP_map]
        have hcongr : ∀ q ∈ declared,
            ((fun q => q.1 == p.1 ++ "_desc")
              ∘ (fun p => (p.1 ++ "_desc", "-" ++ p.2))) q = true
            ↔ (fun q => q.1 == p.1) q = true := by
          intro q _
          by_cases h : q.1 = p.1
          · simp [h, Function.comp]
          · have : ¬(q.1 ++ "_desc" = p.1 ++ "_desc") := by
              intro hc
              exact h (string_append_right_cancel hc)
            simp [h, this, Function.comp]
        rw [List.countP_congr hcongr]
        exact countP_key_of_nodup declared hnodup p hp
      rw [hzero, hone]
    · unfold orderingEnumMembers
      exact List.mem_append_right _
        (List.mem_map_of_mem (fun p => (p.1 ++ "_desc", "-" ++ p.2)) hp)
  · unfold orderingEnumMembers
    rw [List.length_append, List.length_map]
    omega
  · intro q hq
    unfold orderingEnumMembers at hq
    rcases List.mem_append.mp hq with h | h
    · exact Or.inl h
    · obtain ⟨p, hp, rfl⟩ := List.mem_map.mp h
      exact Or.inr ⟨p, hp, rfl⟩

/-- Witness for C7 at a concrete two-member ordering enum. -/
theorem ordering_enum_members_spec_witness :
    (∀ p ∈ [("created", "created"), ("modified", "modified")],
      (orderingEnumMembers
          [("created", "created"), ("modified", "modified")]).countP
          (fun q => q.1 == p.1 ++ "_desc") = 1
      ∧ (p.1 ++ "_desc", "-" ++ p.2)
          ∈ orderingEnumMembers
              [("created", "created"), ("modified", "modified")])
    ∧ (orderingEnumMembers
        [("created", "created"), ("modified", "modified")]).length = 2 * 2
    ∧ (∀ q ∈ orderingEnumMembers
          [("created", "created"), ("modified", "modified")],
        q ∈ [("created", "created"), ("modified", "modified")]
        ∨ ∃ p ∈ [("created", "created"), ("modified", "modified")],
            q = (p.1 ++ "_desc", "-" ++ p.2)) :=
  ordering_enum_members_spec
    [("created", "created"), ("modified", "modified")]
    (by decide) (by decide)

/-! Execution semantics for the aggregate queries.  The session is the
external store: executing the count statement built by
BaseRepository.count returns the number of rows satisfying all where
clauses and filter_by criteria, and executing the EXISTS statement
built by BaseRepository.exists returns whether some row satisfies
them.  The code guards both results with a Python or, so a null scalar
result still produces 0 and False respectively. -/

/-- Equality criterion of .filter_by: a None value compares as IS NULL,
an integer value as equality; other value shapes are not given a
semantics. -/
def evalFilterBy (r : Row) (c : String × FilterValue) : Bool :=
  match c.2 with
  | .int i => r.scalars c.1 == some i
  | .none_ => (r.scalars c.1).isNone
  | .list _ => false

/-- The rows of the model satisfying every where clause and every
filter_by criterion: the row set of the statement
select(model).where(*filters).filter_by(**criteria). -/
def qualifyingRows (db : DB μ) (M : ModelMeta μ) (model : μ)
    (fs : List (SQLFilter μ)) (fb : List (String × FilterValue)) :
    List Row :=
  (db.rows model).filter fun r =>
    fs.all (fun f => evalFilter db M f model r) && fb.all (evalFilterBy r)

/-- The Python expression x or d at an optional integer: None and 0 are
falsy. -/
def pyOrInt (x : Option Int) (d : Int) : Int :=
  match x with
  | none => d
  | some v => if v == 0 then d else v

/-- The Python expression x or d at an optional boolean. -/
def pyOrBool (x : Option Bool) (d : Bool) : Bool :=
  match x with
  | none => d
  | some b => if b then b else d

/-- session.scalar of the aggregate count statement: the store returns
the row count. -/
def scalar_count (db : DB μ) (M : ModelMeta μ) (model : μ)
    (fs : List (SQLFilter μ)) (fb : List (String × FilterValue)) :
    Option Int :=
  some ((qualifyingRows db M model fs fb).length : Int)

/-- session.scalar of the EXISTS statement. -/
def scalar_exists (db : DB μ) (M : ModelMeta μ) (model : μ)
    (fs : List (SQLFilter μ)) (fb : List (String × FilterValue)) :
    Option Bool :=
  some (!(qualifyingRows db M model fs fb).isEmpty)

/-- BaseRepository.count: build the count statement from the processed
where filters and the filter_by criteria, execute it, and guard the
scalar result with or 0. -/
def BaseRepository.count (db : DB μ) (M : ModelMeta μ) (model : μ)
    (whereArg : List (WhereFilter μ)) (fb : List (String × FilterValue)) :
    Except FilterError Int :=
  match process_where_filters M model whereArg with
  | .error e => .error e
  | .ok fs => .ok (pyOrInt (scalar_count db M model fs fb) 0)

/-- BaseRepository.exists: build the EXISTS statement the same way and
guard the scalar result with or False. -/
def BaseRepository.exists_q (db : DB μ) (M : ModelMeta μ) (model : μ)
    (whereArg : List (WhereFilter μ)) (fb : List (String × FilterValue)) :
    Except FilterError Bool :=
  match process_where_filters M model whereArg with
  | .error e => .error e
  | .ok fs => .ok (pyOrBool (scalar_exists db M model fs fb) false)

/-- C6: for every where filter list and keyword criteria whose
transforms succeed, exists is true exactly when count is positive;
count is the number of qualifying rows, hence the integer 0 rather
than null when no rows qualify, including on an empty table; and the
or-guards turn a null session scalar into 0 and False, so count never
returns null and exists always returns a boolean. -/
theorem count_exists_agree (db : DB μ) (M : ModelMeta μ) (model : μ)
    (whereArg : List (WhereFilter μ)) (fb : List (String × FilterValue))
    (fs : List (SQLFilter μ))
    (hok : process_where_filters M model whereArg = .ok fs) :
    (BaseRepository.exists_q db M model whereArg fb = .ok true ↔
      ∃ n : Int, BaseRepository.count db M model whereArg fb = .ok n
        ∧ 0 < n)
    ∧ BaseRepository.count db M model whereArg fb
        = .ok ((qualifyingRows db M model fs fb).length : Int)
    ∧ (qualifyingRows db M model fs fb = [] →
        BaseRepository.count db M model whereArg fb = .ok 0)
    ∧ pyOrInt none 0 = 0
    ∧ pyOrBool none false = false := by
  have hcount : BaseRepository.count db M model whereArg fb
      = .ok ((qualifyingRows db M model fs fb).length : Int) := by
    unfold BaseRepository.count
    rw [hok]
    unfold pyOrInt scalar_count
    by_cases h : (qualifyingRows db M model fs fb).length = 0
    · simp [h]
    · simp [h]
  have hex : BaseRepository.exists_q db M model whereArg fb
      = .ok (!(qualifyingRows db M model fs fb).isEmpty) := by
    unfold BaseRepository.exists_q
    rw [hok]
    unfold pyOrBool scalar_exists
    by_cases h : (qualifyingRows db M model fs fb).isEmpty
    · simp [h]
    · simp [h]
  refine ⟨?_, hcount, ?_, rfl, rfl⟩
  · rw [hex]
    constructor
    · intro h
      have hb := Except.ok.inj h
      have hne : qualifyingRows db M model fs fb ≠ [] := by
        simpa using hb
      have hlen : 0 < (qualifyingRows db M model fs fb).length :=
        List.length_pos.mpr hne
      exact ⟨_, hcount, by exact_mod_cast hlen⟩
    · intro ⟨n, hn, hpos⟩
      rw [hcount] at hn
      have hcast : ((qualifyingRows db M model fs fb).length : Int) = n :=
        Except.ok.inj hn
      have hlen : 0 < (qualifyingRows db M model fs fb).length := by omega
      have hne : qualifyingRows db M model fs fb ≠ [] :=
        List.ne_nil_of_length_pos hlen
      simp [hne]
  · intro h
    rw [hcount, h]
    rfl

/-- Evaluation of a simple column comparison is definitionally the
scalar comparison. -/
theorem evalFilter_simple (db : DB μ) (M : ModelMeta μ) (f : String)
    (op : PyOp) (v : FilterValue) (model : μ) (r : Row) :
    evalFilter db M (.simple f op v) model r
      = evalSimple op v (r.scalars f) := rfl

/-! Soft delete, sections BaseSoftDeleteRepository.delete and
force_delete of repositories/core.py.  The soft-delete table state is
the list of its rows; an instance carries the primary key, the deleted
marker and an opaque payload standing for every other column. -/

structure SoftDeleteInstance where
  id : Int
  deleted : Option Int
  payload : Int
deriving DecidableEq

/-- The assignment instance.deleted = now performed by delete. -/
def markDeleted (i : SoftDeleteInstance) (now : Int) : SoftDeleteInstance :=
  { i with deleted := some now }

/-- session.add followed by flush, as called by BaseRepository.save:
write the instance to the row with the same primary key, or insert it
when no row has that key. -/
def session_save (t : List SoftDeleteInstance) (i : SoftDeleteInstance) :
    List SoftDeleteInstance :=
  if t.any (fun r => r.id == i.id) then
    t.map (fun r => if r.id == i.id then i else r)
  else t ++ [i]

/-- BaseSoftDeleteRepository.delete: set the deleted marker of the
instance to the current timestamp and save it; returns the new table
state and the written instance. -/
def BaseSoftDeleteRepository.delete (t : List SoftDeleteInstance)
    (i : SoftDeleteInstance) (now : Int) :
    List SoftDeleteInstance × SoftDeleteInstance :=
  let updated := markDeleted i now
  (session_save t updated, updated)

/-- session.delete followed by flush, as called by
BaseRepository.delete: physically remove the row with the primary key
of the instance. -/
def session_delete (t : List SoftDeleteInstance) (i : SoftDeleteInstance) :
    List SoftDeleteInstance :=
  t.filter (fun r => !(r.id == i.id))

/-- BaseSoftDeleteRepository.force_delete calls the physical delete of
the base repository, bypassing the marker. -/
def BaseSoftDeleteRepository.force_delete (t : List SoftDeleteInstance)
    (i : SoftDeleteInstance) : List SoftDeleteInstance :=
  session_delete t i

/-- The soft-delete model as a one-entity universe for the generic
pipeline: columns id, deleted, payload, primary key id, no
many-to-many configuration. -/
def sdMeta : ModelMeta Unit where
  attr := fun _ f =>
    if f = "id" ∨ f = "deleted" ∨ f = "payload" then some .column else none
  pk_field := fun _ => "id"
  m2m_filters := fun _ _ => none

def sdToRow (i : SoftDeleteInstance) : Row :=
  ⟨fun f =>
    if f = "id" then some i.id
    else if f = "deleted" then i.deleted
    else if f = "payload" then some i.payload
    else none⟩

def sdDB (t : List SoftDeleteInstance) : DB Unit where
  rows := fun _ => t.map sdToRow
  related := fun _ _ _ => []

/-- The primary key equality filter a caller passes to retrieve one row
by id. -/
def sdPkFilter (pk : Int) : WhereFilter Unit :=
  .sql (.simple "id" .eq (.int pk))

/-- A statement with a single simple where clause and no filter_by
criteria selects by the scalar comparison alone. -/
theorem qualifyingRows_single_simple (db : DB μ) (M : ModelMeta μ)
    (model : μ) (f : String) (op : PyOp) (v : FilterValue) :
    qualifyingRows db M model [.simple f op v] []
      = (db.rows model).filter (fun r => evalSimple op v (r.scalars f)) := by
  unfold qualifyingRows
  apply List.filter_congr
  intro r _
  simp [evalFilter_simple]

/-- The qualifying rows of the pk-filtered statement over a soft-delete
table are exactly the rows with that id. -/
theorem sd_qualifying (t : List SoftDeleteInstance) (pk : Int) :
    qualifyingRows (sdDB t) sdMeta () [.simple "id" .eq (.int pk)] []
      = (t.filter (fun r => r.id == pk)).map sdToRow := by
  rw [qualifyingRows_single_simple]
  show (t.map sdToRow).filter _ = _
  induction t with
  | nil => rfl
  | cons a tl ih =>
    simp only [List.map_cons, List.filter_cons]
    have hpred : evalSimple .eq (.int pk) ((sdToRow a).scalars "id")
        = (a.id == pk) := by
      simp [sdToRow, evalSimple]
    rw [hpred]
    by_cases h : a.id == pk
    · simp only [h, cond_true, List.map_cons, if_true]
      simp [ih]
    · simp only [h, cond_false]
      exact ih

/-- count over a soft-delete table with the pk filter counts the rows
with that id. -/
theorem sd_count_eq (t : List SoftDeleteInstance) (pk : Int) :
    BaseRepository.count (sdDB t) sdMeta () [sdPkFilter pk] []
      = .ok (((t.filter (fun r => r.id == pk)).length : Int)) := by
  unfold BaseRepository.count
  have hok : process_where_filters sdMeta ()
      ([sdPkFilter pk] : List (WhereFilter Unit))
      = .ok [.simple "id" .eq (.int pk)] := rfl
  simp only [hok]
  unfold pyOrInt scalar_count
  rw [sd_qualifying, List.length_map]
  by_cases h : (t.filter (fun r => r.id == pk)).length = 0
  · simp [h]
  · simp [h]

/-- exists over a soft-delete table with the pk filter is the
non-emptiness of the rows with that id. -/
theorem sd_exists_eq (t : List SoftDeleteInstance) (pk : Int) :
    BaseRepository.exists_q (sdDB t) sdMeta () [sdPkFilter pk] []
      = .ok (!(t.filter (fun r => r.id == pk)).isEmpty) := by
  unfold BaseRepository.exists_q
  have hok : process_where_filters sdMeta ()
      ([sdPkFilter pk] : List (WhereFilter Unit))
      = .ok [.simple "id" .eq (.int pk)] := rfl
  simp only [hok]
  unfold pyOrBool scalar_exists
  rw [sd_qualifying]
  have hmapempty : ∀ l : List SoftDeleteInstance,
      (l.map sdToRow).isEmpty = l.isEmpty := by
    intro l
    cases l <;> rfl
  rw [hmapempty]
  by_cases h : (t.filter (fun r => r.id == pk)).isEmpty
  · simp [h]
  · simp [h]

/-- Rows other than the saved one keep no trace of the write: replacing
by key and filtering by that key in a table without that key yields
nothing. -/
theorem sd_filter_replace_absent (tl : List SoftDeleteInstance) (pk : Int)
    (i : SoftDeleteInstance) (habs : ∀ j ∈ tl, j.id ≠ pk) :
    (tl.map (fun r => if r.id == pk then i else r)).filter
        (fun r => r.id == pk) = [] := by
  induction tl with
  | nil => rfl
  | cons a tl ih =>
    have hb : (a.id == pk) = false := by
      simpa using habs a (List.mem_cons_self a tl)
    simp only [List.map_cons, List.filter_cons, hb, Bool.false_eq_true,
      if_false]
    exact ih (fun j hj => habs j (List.mem_cons_of_mem a hj))

/-- Replacing the row of a present key and selecting by that key keeps
exactly the replacement. -/
theorem sd_filter_replace (t : List SoftDeleteInstance) (pk : Int)
    (i : SoftDeleteInstance)
    (hnodup : (t.map SoftDeleteInstance.id).Nodup)
    (hmem : ∃ j ∈ t, j.id = pk) (hid : i.id = pk) :
    (t.map (fun r => if r.id == pk then i else r)).filter
        (fun r => r.id == pk) = [i] := by
  induction t with
  | nil => obtain ⟨j, hj, _⟩ := hmem; exact absurd hj (List.not_mem_nil j)
  | cons a tl ih =>
    rw [List.map_cons] at hnodup
    have hnd := List.nodup_cons.mp hnodup
    by_cases ha : a.id = pk
    · have hab : (a.id == pk) = true := by simpa using ha
      have hib : (i.id == pk) = true := by simpa using hid
      simp only [List.map_cons, List.filter_cons, hab, hib, if_true]
      have habs : ∀ j ∈ tl, j.id ≠ pk := by
        intro j hj hc
        rw [← ha] at hc
        exact hnd.1 (hc ▸ List.mem_map_of_mem SoftDeleteInstance.id hj)
      rw [sd_filter_replace_absent tl pk i habs]
    · have hab : (a.id == pk) = false := by simpa using ha
      simp only [List.map_cons, List.filter_cons, hab, Bool.false_eq_true,
        if_false]
      refine ih hnd.2 ?_
      obtain ⟨j, hj, hjpk⟩ := hmem
      rcases List.mem_cons.mp hj with rfl | hj2
      · exact absurd hjpk ha
      · exact ⟨j, hj2, hjpk⟩

/-- Removing by key then selecting by that key yields nothing. -/
theorem sd_filter_after_remove (t : List SoftDeleteInstance) (pk : Int) :
    (t.filter (fun r => !(r.id == pk))).filter (fun r => r.id == pk)
      = [] := by
  induction t with
  | nil => rfl
  | cons a tl ih =>
    simp only [List.filter_cons]
    by_cases h : (a.id == pk) = true
    · simp only [h, Bool.not_true, Bool.false_eq_true, if_false]
      exact ih
    · have hb : (a.id == pk) = false := by
        cases hv : a.id == pk
        · rfl
        · exact absurd hv h
      simp only [hb, Bool.not_false, if_true]
      rw [List.filter_cons]
      simp only [hb, Bool.false_eq_true, if_false]
      exact ih

/-- C8: soft delete sets the deleted marker of the instance to the
current timestamp and saves it, changing nothing else of the row; the
row stays retrievable by primary key, counted and reported existing by
the aggregate queries, because the repository adds no automatic
marker-is-null filter (the pk-filtered statement carries exactly the
given filter); force_delete physically removes the row regardless of
the marker, making it unretrievable. -/
theorem soft_delete_spec (t : List SoftDeleteInstance)
    (i : SoftDeleteInstance) (now : Int)
    (hnodup : (t.map SoftDeleteInstance.id).Nodup) (hmem : i ∈ t) :
    ((BaseSoftDeleteRepository.delete t i now).2.deleted = some now)
    ∧ ((BaseSoftDeleteRepository.delete t i now).2.id = i.id)
    ∧ ((BaseSoftDeleteRepository.delete t i now).2.payload = i.payload)
    ∧ ((BaseSoftDeleteRepository.delete t i now).1.filter
        (fun r => r.id == i.id) = [markDeleted i now])
    ∧ (BaseRepository.count
        (sdDB (BaseSoftDeleteRepository.delete t i now).1)
        sdMeta () [sdPkFilter i.id] [] = .ok 1)
    ∧ (BaseRepository.exists_q
        (sdDB (BaseSoftDeleteRepository.delete t i now).1)
        sdMeta () [sdPkFilter i.id] [] = .ok true)
    ∧ (get_filter_statement sdMeta () none [sdPkFilter i.id] []
        = .ok { select_statement () with
            where_clauses := [.simple "id" .eq (.int i.id)] })
    ∧ ((BaseSoftDeleteRepository.force_delete
          (BaseSoftDeleteRepository.delete t i now).1
          (BaseSoftDeleteRepository.delete t i now).2).filter
        (fun r => r.id == i.id) = [])
    ∧ (BaseRepository.count
        (sdDB (BaseSoftDeleteRepository.force_delete
          (BaseSoftDeleteRepository.delete t i now).1
          (BaseSoftDeleteRepository.delete t i now).2))
        sdMeta () [sdPkFilter i.id] [] = .ok 0)
    ∧ (BaseRepository.exists_q
        (sdDB (BaseSoftDeleteRepository.force_delete
          (BaseSoftDeleteRepository.delete t i now).1
          (BaseSoftDeleteRepository.delete t i now).2))
        sdMeta () [sdPkFilter i.id] [] = .ok false) := by
  have hT : (BaseSoftDeleteRepository.delete t i now).1
      = t.map (fun r => if r.id == i.id then markDeleted i now else r) := by
    unfold BaseSoftDeleteRepository.delete session_save
    have hany : t.any (fun r => r.id == (markDeleted i now).id) = true :=
      List.any_eq_true.mpr ⟨i, hmem, by simp [markDeleted]⟩
    simp only [hany, if_true]
    rfl
  have hfil : (BaseSoftDeleteRepository.delete t i now).1.filter
      (fun r => r.id == i.id) = [markDeleted i now] := by
    rw [hT]
    exact sd_filter_replace t i.id (markDeleted i now) hnodup
      ⟨i, hmem, rfl⟩ rfl
  have hforce : BaseSoftDeleteRepository.force_delete
      (BaseSoftDeleteRepository.delete t i now).1
      (BaseSoftDeleteRepository.delete t i now).2
      = (BaseSoftDeleteRepository.delete t i now).1.filter
          (fun r => !(r.id == i.id)) := rfl
  have hffil : (BaseSoftDeleteRepository.force_delete
      (BaseSoftDeleteRepository.delete t i now).1
      (BaseSoftDeleteRepository.delete t i now).2).filter
      (fun r => r.id == i.id) = [] := by
    rw [hforce]
    exact sd_filter_after_remove _ i.id
  refine ⟨rfl, rfl, rfl, hfil, ?_, ?_, rfl, hffil, ?_, ?_⟩
  · rw [sd_count_eq, hfil]
    rfl
  · rw [sd_exists_eq, hfil]
    rfl
  · rw [sd_count_eq, hffil]
    rfl
  · rw [sd_exists_eq, hffil]
    rfl

/-- Witness for C8 at a concrete two-row table. -/
theorem soft_delete_spec_witness :
    ((BaseSoftDeleteRepository.delete
        [⟨1, none, 10⟩, ⟨2, none, 20⟩] ⟨1, none, 10⟩ 99).2.deleted
      = some 99)
    ∧ BaseRepository.count
        (sdDB (BaseSoftDeleteRepository.delete
          [⟨1, none, 10⟩, ⟨2, none, 20⟩] ⟨1, none, 10⟩ 99).1)
        sdMeta () [sdPkFilter 1] [] = .ok 1
    ∧ BaseRepository.count
        (sdDB (BaseSoftDeleteRepository.force_delete
          (BaseSoftDeleteRepository.delete
            [⟨1, none, 10⟩, ⟨2, none, 20⟩] ⟨1, none, 10⟩ 99).1
          (BaseSoftDeleteRepository.delete
            [⟨1, none, 10⟩, ⟨2, none, 20⟩] ⟨1, none, 10⟩ 99).2))
        sdMeta () [sdPkFilter 1] [] = .ok 0 := by
  have h := soft_delete_spec [⟨1, none, 10⟩, ⟨2, none, 20⟩] ⟨1, none, 10⟩ 99
    (by decide) (by decide)
  exact ⟨h.1, h.2.2.2.2.1, h.2.2.2.2.2.2.2.2.1⟩

/-- A one-row store used by the aggregate witness. -/
def oneRowDB : DB TestEnt where
  rows := fun m =>
    match m with
    | .tm => [⟨fun f => if f = "id" then some 1 else none⟩]
    | _ => []
  related := fun _ _ _ => []

/-- Witness for C6 at the one-row store. -/
theorem count_exists_agree_witness :
    (BaseRepository.exists_q oneRowDB testMeta TestEnt.tm
        [.sql (.simple "id" .eq (.int 1))] [] = .ok true ↔
      ∃ n : Int, BaseRepository.count oneRowDB testMeta TestEnt.tm
          [.sql (.simple "id" .eq (.int 1))] [] = .ok n ∧ 0 < n)
    ∧ BaseRepository.count oneRowDB testMeta TestEnt.tm
        [.sql (.simple "id" .eq (.int 1))] []
      = .ok ((qualifyingRows oneRowDB testMeta TestEnt.tm
          [.simple "id" .eq (.int 1)] []).length : Int)
    ∧ (qualifyingRows oneRowDB testMeta TestEnt.tm
          [.simple "id" .eq (.int 1)] [] = [] →
        BaseRepository.count oneRowDB testMeta TestEnt.tm
          [.sql (.simple "id" .eq (.int 1))] [] = .ok 0)
    ∧ pyOrInt none 0 = 0
    ∧ pyOrBool none false = false :=
  count_exists_agree oneRowDB testMeta TestEnt.tm
    [.sql (.simple "id" .eq (.int 1))] [] [.simple "id" .eq (.int 1)] rfl

/-! Schema auto-generation of schema/auto_schema.py.  Storage column
types are the keys of the registry _get_db_types_mapping; the pydantic
side is the shape of the generated field types.  The extra field
config and validators of the Meta class only adjust generated
constraint payloads and never change which exception is raised, so
they are not carried by the embedding; the model name computation of
get_schema_name is likewise omitted, and the generated schema is its
field map. -/

inductive DBFieldType where
  | string (length : Option Int)
  | text (length : Option Int)
  | integer
  | smallInteger
  | enum_ (enum_class : Option String)
  | date
  | dateTime
  | boolean
  | numeric (precision scale : Option Int)
  | interval
  | array (item : DBFieldType)
  | json
  | dateRange
  | unregistered (typeName : String)
deriving DecidableEq

/-- The return annotation of a Python property relevant to the
generators: its display name, whether it is a union with None (origin
UnionType, read as nullability), and whether the annotation object
after unwrapping the union passes the Iterable instance check. -/
structure PropertyAnnotation where
  typeName : String
  isUnionWithNone : Bool
  isIterable : Bool
deriving DecidableEq

/-- What getattr on the model yields for a schema field name: a Python
property, a relationship attribute (uselist flag, nullability of the
first local foreign-key column), or a mapped column with its storage
type and nullability. -/
inductive SchemaAttr where
  | pyProperty (ann : PropertyAnnotation)
  | relationship (uselist : Bool) (local_nullable : Bool)
  | column (dbType : DBFieldType) (nullable : Bool)
deriving DecidableEq

structure SchemaModelMeta where
  attr : String → Option SchemaAttr

inductive PydanticType where
  | strCon (strip_whitespace : Bool) (max_length : Option Int)
  | intRange (ge le : Int)
  | decimal (precision scale : Option Int)
  | bool_
  | enumT (name : String)
  | date
  | datetime_
  | timedelta
  | list_ (t : PydanticType)
  | jsonDict
  | dateRange
  | named (typeName : String)
  | optional (t : PydanticType)
deriving DecidableEq

/-- Exceptions of schema generation: the explicit ValueError of the
base-model versus config conflict, AttributeError of getattr,
KeyError of the types-mapping dict lookup in _generate_array_field,
and the two ModelAutoSchemaError subclasses UnableProcessTypeError and
UnableToExtractEnumClassError. -/
inductive SchemaError where
  | valueError (msg : String)
  | attributeError (name : String)
  | keyError (typeName : String)
  | unableProcessType (msg : String)
  | unableToExtractEnumClass (msg : String)
deriving DecidableEq

/-- Membership of a storage type class in _get_db_types_mapping. -/
def in_db_types_mapping : DBFieldType → Bool
  | .unregistered _ => false
  | _ => true

def nullWrap (nullable : Bool) (t : PydanticType) : PydanticType :=
  if nullable then .optional t else t

/-- The per-type generators _generate_string_field through
_generate_date_range, dispatched through the registry.  The optional
wrapper follows model_attribute.nullable in every generator; the array
generator looks its item type up in the registry with a plain dict
subscript, so an unregistered item raises KeyError, and applies the
item generator with the same attribute nullability, as the source
does. -/
def generate_column_field : DBFieldType → Bool → Except SchemaError PydanticType
  | .string len, nullable => .ok (nullWrap nullable (.strCon true len))
  | .text len, nullable => .ok (nullWrap nullable (.strCon true len))
  | .integer, nullable =>
    .ok (nullWrap nullable (.intRange (-2147483648) 2147483647))
  | .smallInteger, nullable =>
    .ok (nullWrap nullable (.intRange (-32768) 32767))
  | .enum_ none, _ =>
    .error (.unableToExtractEnumClass "Cant extract enum for field")
  | .enum_ (some e), nullable => .ok (nullWrap nullable (.enumT e))
  | .date, nullable => .ok (nullWrap nullable .date)
  | .dateTime, nullable => .ok (nullWrap nullable .datetime_)
  | .boolean, nullable => .ok (nullWrap nullable .bool_)
  | .numeric p sc, nullable => .ok (nullWrap nullable (.decimal p sc))
  | .interval, nullable => .ok (nullWrap nullable .timedelta)
  | .array item, nullable =>
    if in_db_types_mapping item then
      match generate_column_field item nullable with
      | .error e => .error e
      | .ok t => .ok (nullWrap nullable (.list_ t))
    else .error (.keyError "array item type not in types mapping")
  | .json, nullable =>
    .ok (nullWrap nullable .jsonDict)
  | .dateRange, nullable => .ok (nullWrap nullable .dateRange)
  | .unregistered n, _ => .error (.keyError n)

/-- ModelAutoSchema._generate_field: properties pass their return
annotation through, relationship attributes raise
UnableProcessTypeError before any store interaction, unregistered
storage types raise UnableProcessTypeError, and registered types
dispatch to their generator. -/
def _generate_field (Mt : SchemaModelMeta) (field : String) :
    Except SchemaError PydanticType :=
  match Mt.attr field with
  | none => .error (.attributeError field)
  | some (.pyProperty ann) => .ok (.named ann.typeName)
  | some (.relationship _ _) =>
    .error (.unableProcessType
      ("Schema generation is not supported for relationship fields("
        ++ field ++ "), please use auto-schema or pydantic class"))
  | some (.column t nullable) =>
    if in_db_types_mapping t then generate_column_field t nullable
    else
      .error (.unableProcessType
        ("Cant generate generate type for field " ++ field))

/-- The second component of a (name, type) field spec: a nested
ModelAutoSchema subclass, carried by the result of its own recursive
get_schema call, or any other type, passed through unchanged. -/
inductive CustomFieldType where
  | autoSchemaGen (result : Except SchemaError PydanticType)
  | rawType (t : PydanticType)

/-- ModelAutoSchema._generate_field_with_custom_type: a non-schema type
passes through; a nested auto schema is generated recursively, then
wrapped in a list when the relationship is to-many and made optional
from the nullability of the local foreign-key column; for a property
the return annotation drives nullability (union with None) and list
wrapping (Iterable annotation).  On a plain column attribute the
source reads model_attribute.property.uselist, which a column property
does not have, raising AttributeError. -/
def _generate_field_with_custom_type (Mt : SchemaModelMeta) (field : String)
    (ftype : CustomFieldType) : Except SchemaError PydanticType :=
  match ftype with
  | .rawType t => .ok t
  | .autoSchemaGen res =>
    match res with
    | .error e => .error e
    | .ok nested =>
      match Mt.attr field with
      | none => .error (.attributeError field)
      | some (.pyProperty ann) =>
        let base := if ann.isIterable then PydanticType.list_ nested
          else nested
        .ok (if ann.isUnionWithNone then .optional base else base)
      | some (.relationship uselist local_nullable) =>
        let t := if uselist then PydanticType.list_ nested else nested
        .ok (if local_nullable then .optional t else t)
      | some (.column _ _) => .error (.attributeError "uselist")

/-- A Meta.fields entry: a plain name, a (name, type) pair, or any
other shape, which get_schema rejects. -/
inductive MetaField where
  | plain (name : String)
  | custom (name : String) (ftype : CustomFieldType)
  | malformed (repr : String)

/-- The Meta class surface read by get_schema: the model reflection,
the truthiness of base_model and model_config (a class is always
truthy, a config dict is truthy when non-empty), and the field list. -/
structure SchemaMeta where
  model : SchemaModelMeta
  base_model_present : Bool
  model_config_truthy : Bool
  fields : List MetaField

/-- The field loop of get_schema: generate every field in order; the
first exception aborts the whole generation. -/
def processFields (Mt : SchemaModelMeta) :
    List MetaField → Except SchemaError (List (String × PydanticType))
  | [] => .ok []
  | .plain f :: rest =>
    match _generate_field Mt f with
    | .error e => .error e
    | .ok t =>
      match processFields Mt rest with
      | .error e => .error e
      | .ok gs => .ok ((f, t) :: gs)
  | .custom f ft :: rest =>
    match _generate_field_with_custom_type Mt f ft with
    | .error e => .error e
    | .ok t =>
      match processFields Mt rest with
      | .error e => .error e
      | .ok gs => .ok ((f, t) :: gs)
  | .malformed r :: _ =>
    .error (.unableProcessType ("Cant process the following field " ++ r))

/-- ModelAutoSchema.get_schema: reject a simultaneously supplied truthy
base model and model config, then build the field map; the result
stands for the pydantic.create_model call. -/
def get_schema (meta : SchemaMeta) :
    Except SchemaError (List (String × PydanticType)) :=
  if meta.base_model_present && meta.model_config_truthy then
    .error (.valueError "Only config or base model could be passed to create_model")
  else processFields meta.model meta.fields

/-- One-step equations of processFields. -/
theorem processFields_cons_plain (Mt : SchemaModelMeta) (f : String)
    (rest : List MetaField) :
    processFields Mt (.plain f :: rest)
      = match _generate_field Mt f with
        | .error e => .error e
        | .ok t =>
          match processFields Mt rest with
          | .error e => .error e
          | .ok gs => .ok ((f, t) :: gs) := rfl

theorem processFields_cons_custom (Mt : SchemaModelMeta) (f : String)
    (ft : CustomFieldType) (rest : List MetaField) :
    processFields Mt (.custom f ft :: rest)
      = match _generate_field_with_custom_type Mt f ft with
        | .error e => .error e
        | .ok t =>
          match processFields Mt rest with
          | .error e => .error e
          | .ok gs => .ok ((f, t) :: gs) := rfl

theorem processFields_cons_malformed (Mt : SchemaModelMeta) (r : String)
    (rest : List MetaField) :
    processFields Mt (.malformed r :: rest)
      = .error (.unableProcessType
          ("Cant process the following field " ++ r)) := rfl

/-- When a prefix of the field list generates cleanly, processing the
whole list continues into the suffix. -/
theorem processFields_append_ok (Mt : SchemaModelMeta)
    (l1 l2 : List MetaField) (gs : List (String × PydanticType))
    (h : processFields Mt l1 = .ok gs) :
    processFields Mt (l1 ++ l2)
      = Except.map (fun gs2 => gs ++ gs2) (processFields Mt l2) := by
  induction l1 generalizing gs with
  | nil =>
    have hgs : gs = [] := by
      have h2 := h
      unfold processFields at h2
      exact (Except.ok.inj h2).symm
    subst hgs
    cases h2 : processFields Mt l2 <;> simp [Except.map, h2]
  | cons a l1 ih =>
    cases a with
    | plain f =>
      rw [processFields_cons_plain] at h
      obtain ⟨t, gs1, hgf, hrest, hcons⟩ :
          ∃ t gs1, _generate_field Mt f = .ok t
            ∧ processFields Mt l1 = .ok gs1 ∧ gs = (f, t) :: gs1 := by
        rcases hga : _generate_field Mt f with e | t
        · rw [hga] at h
          simp at h
        · rw [hga] at h
          rcases hr : processFields Mt l1 with e | gs1
          · rw [hr] at h
            simp at h
          · rw [hr] at h
            simp only [] at h
            exact ⟨t, gs1, rfl, rfl, (Except.ok.inj h).symm⟩
      subst hcons
      rw [List.cons_append, processFields_cons_plain, hgf]
      show (match processFields Mt (l1 ++ l2) with
        | Except.error e => Except.error e
        | Except.ok gs2 => Except.ok ((f, t) :: gs2)) = _
      rw [ih gs1 hrest]
      cases h2 : processFields Mt l2 <;> simp [Except.map]
    | custom f ft =>
      rw [processFields_cons_custom] at h
      obtain ⟨t, gs1, hgf, hrest, hcons⟩ :
          ∃ t gs1, _generate_field_with_custom_type Mt f ft = .ok t
            ∧ processFields Mt l1 = .ok gs1 ∧ gs = (f, t) :: gs1 := by
        rcases hga : _generate_field_with_custom_type Mt f ft with e | t
        · rw [hga] at h
          simp at h
        · rw [hga] at h
          rcases hr : processFields Mt l1 with e | gs1
          · rw [hr] at h
            simp at h
          · rw [hr] at h
            simp only [] at h
            exact ⟨t, gs1, rfl, rfl, (Except.ok.inj h).symm⟩
      subst hcons
      rw [List.cons_append, processFields_cons_custom, hgf]
      show (match processFields Mt (l1 ++ l2) with
        | Except.error e => Except.error e
        | Except.ok gs2 => Except.ok ((f, t) :: gs2)) = _
      rw [ih gs1 hrest]
      cases h2 : processFields Mt l2 <;> simp [Except.map]
    | malformed r =>
      rw [processFields_cons_malformed] at h
      simp at h

/-- C9: when Meta.fields lists a relationship attribute as a bare name,
get_schema raises UnableProcessTypeError (the UnsupportedTypeError and
MissingRelationshipSchemaError of the spec taxonomy) at
schema-construction time, before any store interaction, provided the
Meta options are not themselves conflicting and the fields before it
generate cleanly; schema generation never guesses a nested schema for
a relationship. -/
theorem get_schema_relationship_bare_name (meta : SchemaMeta)
    (pre post : List MetaField) (f : String) (u nb : Bool)
    (gs : List (String × PydanticType))
    (hfields : meta.fields = pre ++ .plain f :: post)
    (hattr : meta.model.attr f = some (.relationship u nb))
    (hconf : (meta.base_model_present && meta.model_config_truthy) = false)
    (hpre : processFields meta.model pre = .ok gs) :
    get_schema meta = .error (.unableProcessType
      ("Schema generation is not supported for relationship fields("
        ++ f ++ "), please use auto-schema or pydantic class")) := by
  unfold get_schema
  rw [hconf]
  simp only [Bool.false_eq_true, if_false]
  rw [hfields, processFields_append_ok meta.model pre (.plain f :: post) gs hpre]
  have hf : processFields meta.model (.plain f :: post)
      = .error (.unableProcessType
        ("Schema generation is not supported for relationship fields("
          ++ f ++ "), please use auto-schema or pydantic class")) := by
    rw [processFields_cons_plain]
    unfold _generate_field
    rw [hattr]
  rw [hf]
  rfl

/-- Concrete schema fixture for the witness: an integer id column and
a bare relationship field. -/
def relSchemaModel : SchemaModelMeta :=
  ⟨fun f =>
    if f = "id" then some (.column .integer false)
    else if f = "rel" then some (.relationship true false)
    else none⟩

def relSchemaMeta : SchemaMeta where
  model := relSchemaModel
  base_model_present := false
  model_config_truthy := false
  fields := [.plain "id", .plain "rel"]

/-- Witness for C9 at the concrete fixture. -/
theorem get_schema_relationship_bare_name_witness :
    get_schema relSchemaMeta = .error (.unableProcessType
      ("Schema generation is not supported for relationship fields("
        ++ "rel" ++ "), please use auto-schema or pydantic class")) :=
  get_schema_relationship_bare_name relSchemaMeta
    [.plain "id"] [] "rel" true false
    [("id", .intRange (-2147483648) 2147483647)]
    rfl rfl rfl rfl

end SST
